import Mathlib

/-!
Shallow embedding of the expense-tracker source (src/index.js) in Lean 4.

JavaScript numbers that can be NaN are modelled by `JsNum` (rationals plus a
NaN element; infinities and floating-point rounding are not modelled — the
spec itself sets floating-point tolerance aside).  The platform primitives
`parseFloat`, `parseInt`, `new Date(...)` (ISO `YYYY-MM-DD` form, as produced
by the date input) and `JSON.parse` are modelled by executable Lean functions
below; scientific notation, `Infinity`, unicode escapes and non-ISO date
formats are outside the modelled input space.
-/

/-- A JavaScript number: either NaN or a rational value. -/
inductive JsNum where
  | nan : JsNum
  | num : ℚ → JsNum
deriving DecidableEq, Repr

/-- JS `+` on numbers: NaN is absorbing. -/
def jsAdd : JsNum → JsNum → JsNum
  | JsNum.num a, JsNum.num b => JsNum.num (a + b)
  | _, _ => JsNum.nan

/-- JS `-` on numbers: NaN is absorbing. -/
def jsSub : JsNum → JsNum → JsNum
  | JsNum.num a, JsNum.num b => JsNum.num (a - b)
  | _, _ => JsNum.nan

/-- JS `<=`: every comparison involving NaN is false. -/
def jsLe : JsNum → JsNum → Bool
  | JsNum.num a, JsNum.num b => a ≤ b
  | _, _ => false

/-- JS `<`: every comparison involving NaN is false. -/
def jsLt : JsNum → JsNum → Bool
  | JsNum.num a, JsNum.num b => a < b
  | _, _ => false

/-- Whether a JS number is an actual number (not NaN). -/
def JsNum.isNum : JsNum → Bool
  | JsNum.nan => false
  | JsNum.num _ => true

/-- The rational value of a JS number, with NaN read as 0. -/
def JsNum.toQ : JsNum → ℚ
  | JsNum.nan => 0
  | JsNum.num q => q

/-- Decimal digits to a natural number. -/
def natOfDigits (ds : List Char) : Nat :=
  ds.foldl (fun n c => 10 * n + (c.toNat - 48)) 0

/-- Model of JS `parseFloat`: skip leading whitespace, optional sign, decimal
digits with an optional fractional part; trailing characters are ignored; NaN
when no digit is found. -/
def parseFloat (s : String) : JsNum :=
  let cs := s.toList.dropWhile Char.isWhitespace
  let sign : ℚ := match cs with
    | '-' :: _ => -1
    | _ => 1
  let cs1 := match cs with
    | '-' :: rest => rest
    | '+' :: rest => rest
    | _ => cs
  let intDigits := cs1.takeWhile Char.isDigit
  let afterInt := cs1.dropWhile Char.isDigit
  let fracDigits := match afterInt with
    | '.' :: r => r.takeWhile Char.isDigit
    | _ => []
  if intDigits.isEmpty && fracDigits.isEmpty then JsNum.nan
  else JsNum.num (sign * ((natOfDigits intDigits : ℚ) +
    (natOfDigits fracDigits : ℚ) / (10 : ℚ) ^ fracDigits.length))

/-- Model of JS `parseInt` (base 10): `none` stands for NaN. -/
def parseInt (s : String) : Option Int :=
  let cs := s.toList.dropWhile Char.isWhitespace
  let sign : Int := match cs with
    | '-' :: _ => -1
    | _ => 1
  let cs1 := match cs with
    | '-' :: rest => rest
    | '+' :: rest => rest
    | _ => cs
  let ds := cs1.takeWhile Char.isDigit
  if ds.isEmpty then none else some (sign * (natOfDigits ds : Int))

/-- An expense record as held in the collection (src/index.js: objects built
by `addExpense` / `updateExpense`).  `amount` is kept as the string the form
produced, exactly as the source stores it. -/
structure Expense where
  id : Nat
  name : String
  amount : String
  dueDate : String
  category : String
  paid : Bool
deriving DecidableEq, Repr

/-- The user-supplied field set for creating or updating an expense. -/
structure Draft where
  name : String
  amount : String
  dueDate : String
  category : String
deriving DecidableEq, Repr

/-- Model of `new Date(s)` restricted to the ISO `YYYY-MM-DD` strings the
date input produces, returning `(getFullYear, getMonth)` with the month
zero-indexed; `none` stands for an Invalid Date (whose `getMonth` /
`getFullYear` are NaN).  Components are read as UTC. -/
def parseIsoDate (s : String) : Option (Nat × Nat) :=
  match s.toList with
  | [y1, y2, y3, y4, '-', m1, m2, '-', d1, d2] =>
    if y1.isDigit && y2.isDigit && y3.isDigit && y4.isDigit &&
       m1.isDigit && m2.isDigit && d1.isDigit && d2.isDigit then
      let y := natOfDigits [y1, y2, y3, y4]
      let m := natOfDigits [m1, m2]
      let d := natOfDigits [d1, d2]
      if 1 ≤ m && m ≤ 12 && 1 ≤ d && d ≤ 31 then some (y, m - 1) else none
    else none
  | _ => none

/-- The filter predicate of src/index.js lines 76-87: a falsy (empty)
`dueDate` is rejected outright; then the category, year and month predicates
are ANDed, a NaN date component comparing unequal to every number. -/
def expenseMatches (categoryFilter monthFilter yearFilter : String)
    (expense : Expense) : Bool :=
  if expense.dueDate = "" then false
  else
    let parsed := parseIsoDate expense.dueDate
    let categoryMatch := categoryFilter == "All" || expense.category == categoryFilter
    let yearMatch := yearFilter == "All" ||
      (match parsed, parseInt yearFilter with
       | some d, some n => ((d.1 : Int) == n)
       | _, _ => false)
    let monthMatch := monthFilter == "All" ||
      (match parsed, parseInt monthFilter with
       | some d, some n => ((d.2 : Int) == n)
       | _, _ => false)
    categoryMatch && yearMatch && monthMatch

/-- `filteredExpenses` of src/index.js line 76. -/
def filteredExpenses (categoryFilter monthFilter yearFilter : String)
    (expenses : List Expense) : List Expense :=
  expenses.filter (expenseMatches categoryFilter monthFilter yearFilter)

/-- `parseFloat(exp.amount || 0)` of src/index.js lines 90-91: a falsy
(empty) amount is coerced to 0 before parsing. -/
def amountOrZero (a : String) : JsNum :=
  if a = "" then JsNum.num 0 else parseFloat a

/-- `totalExpenses` of src/index.js line 90. -/
def totalExpenses (filtered : List Expense) : JsNum :=
  filtered.foldl (fun sum exp => jsAdd sum (amountOrZero exp.amount)) (JsNum.num 0)

/-- `paidExpenses` of src/index.js line 91. -/
def paidExpenses (filtered : List Expense) : JsNum :=
  (filtered.filter fun exp => exp.paid).foldl
    (fun sum exp => jsAdd sum (amountOrZero exp.amount)) (JsNum.num 0)

/-- `unpaidExpenses` of src/index.js line 92. -/
def unpaidExpenses (filtered : List Expense) : JsNum :=
  jsSub (totalExpenses filtered) (paidExpenses filtered)

/-- `addExpense` of src/index.js lines 37-40: appends the draft with
`id = Date.now()` (passed here as `now`) and `paid = false`. -/
def addExpense (draft : Draft) (now : Nat) (expenses : List Expense) :
    List Expense :=
  expenses ++ [{ id := now, name := draft.name, amount := draft.amount,
                 dueDate := draft.dueDate, category := draft.category,
                 paid := false }]

/-- `updateExpense` of src/index.js lines 42-46: replaces every record whose
id equals the updated record's id, in place. -/
def updateExpense (updatedExpense : Expense) (expenses : List Expense) :
    List Expense :=
  expenses.map fun exp => if exp.id = updatedExpense.id then updatedExpense else exp

/-- `deleteExpense` of src/index.js lines 48-52, the confirmed path (the
window.confirm prompt is View-Layer behaviour). -/
def deleteExpense (id : Nat) (expenses : List Expense) : List Expense :=
  expenses.filter fun exp => exp.id ≠ id

/-- `togglePaid` of src/index.js lines 54-56. -/
def togglePaid (id : Nat) (expenses : List Expense) : List Expense :=
  expenses.map fun exp => if exp.id = id then { exp with paid := !exp.paid } else exp

/-- Outcome of a form submission (src/index.js `handleSubmit`). -/
inductive SubmitResult where
  | error : String → SubmitResult
  | add : Draft → SubmitResult
  | update : Expense → SubmitResult
deriving DecidableEq, Repr

/-- `handleSubmit` of src/index.js lines 313-330: empty fields are rejected,
then `parseFloat(amount) <= 0` is rejected (a JS comparison, hence false for
a NaN parse); otherwise the draft is handed to `onUpdate` (merged over the
existing record) or `onAdd`. -/
def handleSubmit (name amount dueDate category : String)
    (existingExpense : Option Expense) : SubmitResult :=
  if name = "" ∨ amount = "" ∨ dueDate = "" ∨ category = "" then
    SubmitResult.error "All fields are required."
  else if jsLe (parseFloat amount) (JsNum.num 0) then
    SubmitResult.error "Amount must be greater than zero."
  else
    match existingExpense with
    | some ex => SubmitResult.update
        { ex with name := name, amount := amount, dueDate := dueDate,
                  category := category }
    | none => SubmitResult.add
        { name := name, amount := amount, dueDate := dueDate, category := category }

/-- How App wires a submit outcome to the collection: `onAdd = addExpense`,
`onUpdate = updateExpense`, and an error leaves the collection untouched. -/
def applySubmit (expenses : List Expense) (now : Nat) :
    SubmitResult → List Expense
  | SubmitResult.error _ => expenses
  | SubmitResult.add draft => addExpense draft now expenses
  | SubmitResult.update e => updateExpense e expenses

/-- One slice of the chart's accumulated data (`{name, value}` of
src/index.js line 248). -/
structure ChartEntry where
  name : String
  value : JsNum
deriving DecidableEq, Repr

/-- Adds `v` to the value of the first entry whose name is `cat` (the
mutation of the object returned by `acc.find`, src/index.js line 246). -/
def addToFirst : List ChartEntry → String → ℚ → List ChartEntry
  | [], _, _ => []
  | item :: rest, cat, v =>
    if item.name = cat then
      { item with value := jsAdd item.value (JsNum.num v) } :: rest
    else item :: addToFirst rest cat v

/-- One reducer step of `chartData` (src/index.js lines 240-251): a NaN
amount is skipped; otherwise the numeric amount is accumulated into the
category's entry, a fresh entry being pushed at the end on first sight. -/
def chartStep (acc : List ChartEntry) (expense : Expense) : List ChartEntry :=
  match parseFloat expense.amount with
  | JsNum.nan => acc
  | JsNum.num v =>
    if acc.any fun item => item.name == expense.category then
      addToFirst acc expense.category v
    else acc ++ [{ name := expense.category, value := JsNum.num v }]

/-- `chartData` of src/index.js lines 240-251. -/
def chartData (expenses : List Expense) : List ChartEntry :=
  expenses.foldl chartStep []

/-- The numeric amount of a record, `none` when `parseFloat` yields NaN. -/
def numericAmount (e : Expense) : Option ℚ :=
  match parseFloat e.amount with
  | JsNum.nan => none
  | JsNum.num v => some v

/-- The contribution of one record to one category bucket: its numeric
amount when the category matches, 0 otherwise (also 0 for a NaN amount). -/
def contrib (e : Expense) (c : String) : ℚ :=
  (if e.category = c then numericAmount e else none).getD 0

/-- The summed numeric amount of a category over a record sequence. -/
def categorySum (es : List Expense) (c : String) : ℚ :=
  (es.map fun e => contrib e c).sum

/-- One step of the first-seen category order. -/
def seenStep (acc : List String) (e : Expense) : List String :=
  match numericAmount e with
  | none => acc
  | some _ => if e.category ∈ acc then acc else acc ++ [e.category]

/-- The distinct categories of numeric-amount records, in first-seen order. -/
def seenCategories (es : List Expense) : List String :=
  es.foldl seenStep []

/-- A JSON value, for the persisted blob. -/
inductive Json where
  | null : Json
  | bool : Bool → Json
  | num : ℚ → Json
  | str : String → Json
  | arr : List Json → Json
  | obj : List (String × Json) → Json

/-- Drop leading JSON whitespace. -/
def skipWs (cs : List Char) : List Char :=
  cs.dropWhile Char.isWhitespace

/-- The characters of a JSON string literal after its opening quote, and the
rest of the input; simple escapes only (unicode escapes are not modelled). -/
def parseStrChars : List Char → Option (List Char × List Char)
  | [] => none
  | '\\' :: c :: rest =>
    match parseStrChars rest with
    | none => none
    | some (acc, rem) =>
      match c with
      | '"' => some ('"' :: acc, rem)
      | '\\' => some ('\\' :: acc, rem)
      | '/' => some ('/' :: acc, rem)
      | 'n' => some ('\n' :: acc, rem)
      | 't' => some ('\t' :: acc, rem)
      | 'r' => some ('\r' :: acc, rem)
      | _ => none
  | '"' :: rest => some ([], rest)
  | c :: rest =>
    match parseStrChars rest with
    | none => none
    | some (acc, rem) => some (c :: acc, rem)

/-- A JSON number (integer or decimal; exponents are not modelled). -/
def parseJsonNumber (cs : List Char) : Option (ℚ × List Char) :=
  let sign : ℚ := match cs with
    | '-' :: _ => -1
    | _ => 1
  let cs1 := match cs with
    | '-' :: rest => rest
    | _ => cs
  let ds := cs1.takeWhile Char.isDigit
  let cs2 := cs1.dropWhile Char.isDigit
  if ds.isEmpty then none
  else
    match cs2 with
    | '.' :: r =>
      let fs := r.takeWhile Char.isDigit
      let r2 := r.dropWhile Char.isDigit
      if fs.isEmpty then none
      else some (sign * ((natOfDigits ds : ℚ) +
        (natOfDigits fs : ℚ) / (10 : ℚ) ^ fs.length), r2)
    | _ => some (sign * (natOfDigits ds : ℚ), cs2)

mutual

/-- Recursive-descent JSON value parser, fuelled. -/
def parseJsonVal : Nat → List Char → Option (Json × List Char)
  | 0, _ => none
  | fuel + 1, cs =>
    match skipWs cs with
    | 'n' :: 'u' :: 'l' :: 'l' :: rest => some (Json.null, rest)
    | 't' :: 'r' :: 'u' :: 'e' :: rest => some (Json.bool true, rest)
    | 'f' :: 'a' :: 'l' :: 's' :: 'e' :: rest => some (Json.bool false, rest)
    | '"' :: rest =>
      match parseStrChars rest with
      | none => none
      | some (chars, rem) => some (Json.str (String.mk chars), rem)
    | '[' :: rest =>
      match skipWs rest with
      | ']' :: rem => some (Json.arr [], rem)
      | _ =>
        match parseJsonElems fuel rest with
        | none => none
        | some (items, rem) => some (Json.arr items, rem)
    | '{' :: rest =>
      match skipWs rest with
      | '}' :: rem => some (Json.obj [], rem)
      | _ =>
        match parseJsonMembers fuel rest with
        | none => none
        | some (fields, rem) => some (Json.obj fields, rem)
    | other =>
      match parseJsonNumber other with
      | none => none
      | some (q, rem) => some (Json.num q, rem)

/-- Comma-separated JSON array elements up to the closing bracket. -/
def parseJsonElems : Nat → List Char → Option (List Json × List Char)
  | 0, _ => none
  | fuel + 1, cs =>
    match parseJsonVal fuel cs with
    | none => none
    | some (v, rem) =>
      match skipWs rem with
      | ',' :: rest =>
        match parseJsonElems fuel rest with
        | none => none
        | some (vs, rem2) => some (v :: vs, rem2)
      | ']' :: rest => some ([v], rest)
      | _ => none

/-- Comma-separated JSON object members up to the closing brace. -/
def parseJsonMembers : Nat → List Char → Option (List (String × Json) × List Char)
  | 0, _ => none
  | fuel + 1, cs =>
    match skipWs cs with
    | '"' :: rest =>
      match parseStrChars rest with
      | none => none
      | some (keyChars, rem) =>
        match skipWs rem with
        | ':' :: rest2 =>
          match parseJsonVal fuel rest2 with
          | none => none
          | some (v, rem2) =>
            match skipWs rem2 with
            | ',' :: rest3 =>
              match parseJsonMembers fuel rest3 with
              | none => none
              | some (fs, rem3) => some ((String.mk keyChars, v) :: fs, rem3)
            | '}' :: rest3 => some ([(String.mk keyChars, v)], rest3)
            | _ => none
        | _ => none
    | _ => none

end

/-- Model of `JSON.parse`: `none` stands for a thrown SyntaxError. -/
def jsonParse (s : String) : Option Json :=
  match parseJsonVal (s.length + 1) s.toList with
  | none => none
  | some (v, rem) => if (skipWs rem).isEmpty then some v else none

/-- The `useState` initializer of src/index.js lines 9-17: a missing or
falsy stored blob yields `[]`, and a blob `JSON.parse` throws on is caught
and also yields `[]` (after a console diagnostic). -/
def loadExpenses (savedExpenses : Option String) : Json :=
  match savedExpenses with
  | none => Json.arr []
  | some s =>
    if s = "" then Json.arr []
    else
      match jsonParse s with
      | some v => v
      | none => Json.arr []

/-! ## Concrete fixtures used by counterexamples and witnesses -/

/-- A record with a truthy but unparseable dueDate. -/
def mysteryExpense : Expense :=
  { id := 1, name := "Mystery", amount := "10", dueDate := "garbage",
    category := "Other", paid := false }

/-- A record whose amount fails numeric parsing (a NaN amount). -/
def nanAmountExpense : Expense :=
  { id := 2, name := "Typo", amount := "abc", dueDate := "2025-01-01",
    category := "Other", paid := false }

/-- Scenario D fixture: first Rent/Mortgage record (800). -/
def rentExpenseA : Expense :=
  { id := 3, name := "Rent", amount := "800", dueDate := "2025-01-01",
    category := "Rent/Mortgage", paid := false }

/-- Scenario D fixture: second Rent/Mortgage record (200). -/
def rentExpenseB : Expense :=
  { id := 4, name := "Mortgage extra", amount := "200", dueDate := "2025-02-01",
    category := "Rent/Mortgage", paid := true }

/-- A well-formed record with id 5, for the id-collision counterexample. -/
def idFiveExpense : Expense :=
  { id := 5, name := "Water", amount := "30", dueDate := "2025-05-01",
    category := "Utilities", paid := false }

/-- A well-formed existing record, for the edit-path witness. -/
def sampleExpense : Expense :=
  { id := 42, name := "Internet", amount := "60", dueDate := "2025-03-01",
    category := "Utilities", paid := true }

/-- A well-formed draft. -/
def sampleDraft : Draft :=
  { name := "Gym", amount := "25", dueDate := "2025-06-01", category := "Other" }

/-- `sampleExpense` after an edit of its four draft fields. -/
def editedSampleExpense : Expense :=
  { sampleExpense with
    name := "Internet", amount := "75.5",
    dueDate := "2025-04-01", category := "Utilities" }

/-- The aggregate total as claim C3 words it (for comparison with the
source's `totalExpenses`): each record contributes its numeric amount, a
record with a non-numeric amount contributes 0, and the result is always a
plain number. -/
def totalPerClaimC3 (filtered : List Expense) : JsNum :=
  JsNum.num ((filtered.map fun e => (parseFloat e.amount).toQ).sum)

/-- Invariant carried through the `chartData` fold: the accumulator's names
are exactly `seen` (no duplicates), every accumulated value is the plain
number `f` assigns to its name, and names not yet seen are at 0. -/
def ChartInv (acc : List ChartEntry) (f : String → ℚ) (seen : List String) : Prop :=
  acc.map ChartEntry.name = seen ∧ seen.Nodup ∧
  (∀ entry ∈ acc, entry.value = JsNum.num (f entry.name)) ∧
  (∀ c, c ∉ seen → f c = 0)

/-! ## Claim theorems -/

/-- C7: `load` returns an empty collection when the storage key is absent,
and an empty collection when the stored blob fails to deserialize (e.g. the
literal string "not json"); the function is total, so no exception reaches
the caller.  A healthy blob round-trips for contrast. -/
theorem c7_load_degrades_to_empty :
    loadExpenses none = Json.arr [] ∧
    loadExpenses (some "not json") = Json.arr [] ∧
    loadExpenses (some "[1, 2]") = Json.arr [Json.num 1, Json.num 2] :=
  ⟨rfl, rfl, by with_unfolding_all rfl⟩

/-- C5: `togglePaid` applied twice at the same id restores the collection,
and a single application rewrites each position in place, flipping exactly
the `paid` flag of the records matching the id and leaving every other
record untouched. -/
theorem c5_togglePaid_involution (id : Nat) (es : List Expense) :
    togglePaid id (togglePaid id es) = es ∧
    ∀ i : Nat, (togglePaid id es)[i]? =
      (es[i]?).map fun e => if e.id = id then { e with paid := !e.paid } else e := by
  constructor
  · unfold togglePaid
    rw [List.map_map]
    refine (List.map_congr_left ?_).trans (List.map_id es)
    intro e _
    by_cases h : e.id = id
    · subst h
      simp [Function.comp, Bool.not_not]
    · simp [Function.comp, h]
  · intro i
    unfold togglePaid
    exact List.getElem?_map _ es i

/-- C6: `updateExpense` keeps the collection's length, rewrites each
position in place — the record matching the updated record's id is replaced
wholesale, so its position is unchanged — and every record with a different
id is still present, unchanged. -/
theorem c6_update_in_place (u : Expense) (es : List Expense) :
    (updateExpense u es).length = es.length ∧
    (∀ i : Nat, (updateExpense u es)[i]? =
      (es[i]?).map fun e => if e.id = u.id then u else e) ∧
    ∀ e ∈ es, e.id ≠ u.id → e ∈ updateExpense u es := by
  refine ⟨by simp [updateExpense], fun i => List.getElem?_map _ es i, ?_⟩
  intro e he hne
  exact List.mem_map.mpr ⟨e, he, by simp [hne]⟩

/-- C10: when the form's submit handler takes the update path, the record it
hands to `updateExpense` keeps the original record's id and paid flag — the
submitted draft carries only name, amount, dueDate and category. -/
theorem c10_update_preserves_id_paid (name amount dueDate category : String)
    (ex e : Expense)
    (h : handleSubmit name amount dueDate category (some ex) =
      SubmitResult.update e) :
    e.id = ex.id ∧ e.paid = ex.paid := by
  unfold handleSubmit at h
  split at h
  · exact absurd h (by simp)
  · split at h
    · exact absurd h (by simp)
    · injection h with h2
      rw [← h2]
      exact ⟨rfl, rfl⟩

/-- C10 witness: editing `sampleExpense` through the form keeps id 42 and
paid = true. -/
theorem c10_update_preserves_id_paid_witness :
    editedSampleExpense.id = sampleExpense.id ∧
    editedSampleExpense.paid = sampleExpense.paid :=
  c10_update_preserves_id_paid "Internet" "75.5" "2025-04-01" "Utilities"
    sampleExpense editedSampleExpense (by with_unfolding_all rfl)

/-- C1 counterexample: `mysteryExpense` has a truthy but unparseable
dueDate, yet with every filter at "All" it appears in `filteredExpenses` —
the source only excludes a falsy (empty) dueDate. -/
theorem c1_unparseable_included_counterexample :
    parseIsoDate mysteryExpense.dueDate = none ∧
    mysteryExpense.dueDate ≠ "" ∧
    filteredExpenses "All" "All" "All" [mysteryExpense] = [mysteryExpense] :=
  ⟨rfl, by simp [mysteryExpense], rfl⟩

/-- C1 (amended): a record with an empty dueDate is excluded under every
filter; a record with a non-empty dueDate that fails date parsing is
included exactly when its category passes the category filter and both the
month filter and the year filter are "All" (its NaN date components compare
unequal to every number, so any concrete month or year filter excludes
it). -/
theorem c1_unparseable_dueDate_filter_amended
    (categoryFilter monthFilter yearFilter : String) (es : List Expense)
    (e : Expense) (hmem : e ∈ es) (hbad : parseIsoDate e.dueDate = none) :
    e ∈ filteredExpenses categoryFilter monthFilter yearFilter es ↔
      (e.dueDate ≠ "" ∧ (categoryFilter = "All" ∨ e.category = categoryFilter) ∧
        yearFilter = "All" ∧ monthFilter = "All") := by
  unfold filteredExpenses
  rw [List.mem_filter]
  unfold expenseMatches
  rw [hbad]
  by_cases hd : e.dueDate = ""
  · simp [hd, hmem]
  · simp [hd, hmem, and_assoc]

/-- C1 witness: the amended characterization evaluated at `mysteryExpense`
under the all-"All" filter selection. -/
theorem c1_unparseable_dueDate_filter_amended_witness :
    mysteryExpense ∈ filteredExpenses "All" "All" "All" [mysteryExpense] ↔
      (mysteryExpense.dueDate ≠ "" ∧
        (("All" : String) = "All" ∨ mysteryExpense.category = "All") ∧
        ("All" : String) = "All" ∧ ("All" : String) = "All") :=
  c1_unparseable_dueDate_filter_amended "All" "All" "All" [mysteryExpense]
    mysteryExpense (by simp) rfl

/-- C2 counterexample: "abc" parses to NaN, which is not greater than zero,
yet the submission is accepted — `parseFloat(amount) <= 0` is false for NaN
— and a record is created. -/
theorem c2_nan_amount_accepted_counterexample :
    jsLt (JsNum.num 0) (parseFloat "abc") = false ∧
    handleSubmit "Typo" "abc" "2025-01-01" "Other" none =
      SubmitResult.add { name := "Typo", amount := "abc",
                         dueDate := "2025-01-01", category := "Other" } ∧
    applySubmit [] 2 (handleSubmit "Typo" "abc" "2025-01-01" "Other" none) =
      [nanAmountExpense] :=
  ⟨rfl, by with_unfolding_all rfl, by with_unfolding_all rfl⟩

/-- C2 (amended): a submission is rejected with "All fields are required."
exactly when some field is empty; it is rejected with "Amount must be
greater than zero." exactly when all fields are non-empty and the JS
comparison `parseFloat(amount) <= 0` holds — which is never the case for a
NaN parse, so a non-numeric amount is accepted; every rejection leaves the
collection unchanged. -/
theorem c2_validation_amended (name amount dueDate category : String)
    (existing : Option Expense) (es : List Expense) (now : Nat) :
    (handleSubmit name amount dueDate category existing =
        SubmitResult.error "All fields are required." ↔
      (name = "" ∨ amount = "" ∨ dueDate = "" ∨ category = "")) ∧
    (handleSubmit name amount dueDate category existing =
        SubmitResult.error "Amount must be greater than zero." ↔
      (¬(name = "" ∨ amount = "" ∨ dueDate = "" ∨ category = "") ∧
        jsLe (parseFloat amount) (JsNum.num 0) = true)) ∧
    (∀ msg, handleSubmit name amount dueDate category existing =
        SubmitResult.error msg →
      applySubmit es now (handleSubmit name amount dueDate category existing) = es) := by
  unfold handleSubmit
  by_cases h1 : name = "" ∨ amount = "" ∨ dueDate = "" ∨ category = ""
  · simp [h1, applySubmit]
  · by_cases h2 : jsLe (parseFloat amount) (JsNum.num 0) = true
    · simp [h1, h2, applySubmit]
    · cases existing with
      | some ex => simp [h1, h2, applySubmit]
      | none => simp [h1, h2, applySubmit]

/-- NaN absorbs on the right of a JS addition. -/
lemma jsAdd_nan_right (a : JsNum) : jsAdd a JsNum.nan = JsNum.nan := by
  cases a <;> rfl

/-- NaN absorbs on the left of a JS subtraction. -/
lemma jsSub_nan_left (b : JsNum) : jsSub JsNum.nan b = JsNum.nan := by
  cases b <;> rfl

/-- A reduce that starts from NaN stays NaN. -/
lemma foldl_jsAdd_from_nan (g : Expense → JsNum) (es : List Expense) :
    es.foldl (fun s e => jsAdd s (g e)) JsNum.nan = JsNum.nan := by
  induction es with
  | nil => rfl
  | cons e t ih =>
    rw [List.foldl_cons]
    have h : jsAdd JsNum.nan (g e) = JsNum.nan := by cases g e <;> rfl
    rw [h, ih]

/-- The summing reduce of src/index.js lines 90-91, characterized: a plain
rational sum when every contribution is a number, NaN as soon as any
contribution is NaN. -/
lemma foldl_jsAdd_characterization (g : Expense → JsNum) (es : List Expense)
    (s0 : ℚ) :
    es.foldl (fun s e => jsAdd s (g e)) (JsNum.num s0) =
      if es.all (fun e => (g e).isNum) then
        JsNum.num (s0 + ((es.map fun e => (g e).toQ).sum))
      else JsNum.nan := by
  induction es generalizing s0 with
  | nil => simp
  | cons e t ih =>
    rw [List.foldl_cons]
    cases hge : g e with
    | nan =>
      rw [jsAdd_nan_right, foldl_jsAdd_from_nan]
      simp [hge, JsNum.isNum]
    | num v =>
      have hstep : jsAdd (JsNum.num s0) (JsNum.num v) = JsNum.num (s0 + v) := rfl
      rw [hstep, ih]
      simp only [List.all_cons, hge, JsNum.isNum, Bool.true_and, List.map_cons,
        List.sum_cons, JsNum.toQ]
      rw [add_assoc]

/-- `totalExpenses`, characterized. -/
lemma totalExpenses_characterization (filtered : List Expense) :
    totalExpenses filtered =
      if filtered.all (fun e => (amountOrZero e.amount).isNum) then
        JsNum.num ((filtered.map fun e => (amountOrZero e.amount).toQ).sum)
      else JsNum.nan := by
  have h := foldl_jsAdd_characterization (fun e => amountOrZero e.amount) filtered 0
  simpa [totalExpenses] using h

/-- `paidExpenses`, characterized. -/
lemma paidExpenses_characterization (filtered : List Expense) :
    paidExpenses filtered =
      if (filtered.filter fun e => e.paid).all
          (fun e => (amountOrZero e.amount).isNum) then
        JsNum.num (((filtered.filter fun e => e.paid).map
          fun e => (amountOrZero e.amount).toQ).sum)
      else JsNum.nan := by
  have h := foldl_jsAdd_characterization (fun e => amountOrZero e.amount)
    (filtered.filter fun e => e.paid) 0
  simpa [paidExpenses] using h

/-- C3 counterexample: a record whose amount "abc" is non-numeric does not
contribute 0 — it turns the whole total into NaN, diverging from the
claim's reading (`totalPerClaimC3`). -/
theorem c3_total_nan_counterexample :
    totalExpenses [nanAmountExpense] = JsNum.nan ∧
    totalPerClaimC3 [nanAmountExpense] = JsNum.num 0 ∧
    totalExpenses [nanAmountExpense] ≠ totalPerClaimC3 [nanAmountExpense] := by
  have h1 : totalExpenses [nanAmountExpense] = JsNum.nan := by
    with_unfolding_all rfl
  have h2 : totalPerClaimC3 [nanAmountExpense] = JsNum.num 0 := by
    with_unfolding_all rfl
  refine ⟨h1, h2, ?_⟩
  rw [h1, h2]
  exact fun h => JsNum.noConfusion h

/-- C3 (amended): the total is the exact rational sum of the per-record
contributions — an empty amount contributing 0 — provided every amount is
empty or numeric; as soon as one record carries a non-empty, non-numeric
amount the whole total is NaN.  The computation itself is total, so it
never raises. -/
theorem c3_total_amended (filtered : List Expense) :
    totalExpenses filtered =
      (if filtered.all (fun e => (amountOrZero e.amount).isNum) then
        JsNum.num ((filtered.map fun e => (amountOrZero e.amount).toQ).sum)
      else JsNum.nan) ∧
    amountOrZero "" = JsNum.num 0 :=
  ⟨totalExpenses_characterization filtered, rfl⟩

/-- C4: for every filtered sequence the displayed total equals paid plus
remaining exactly — `unpaidExpenses` being defined as total minus paid —
whether the sums are plain numbers or NaN. -/
theorem c4_total_split (filtered : List Expense) :
    totalExpenses filtered = jsAdd (paidExpenses filtered) (unpaidExpenses filtered) := by
  unfold unpaidExpenses
  rw [totalExpenses_characterization, paidExpenses_characterization]
  by_cases hall : filtered.all (fun e => (amountOrZero e.amount).isNum) = true
  · have hallp : (filtered.filter fun e => e.paid).all
        (fun e => (amountOrZero e.amount).isNum) = true := by
      rw [List.all_eq_true] at hall ⊢
      intro e he
      exact hall e (List.mem_of_mem_filter he)
    rw [if_pos hall, if_pos hallp]
    simp [jsAdd, jsSub]
  · rw [if_neg hall, jsSub_nan_left, jsAdd_nan_right]

/-- C9 counterexample: `Date.now()` is not guaranteed distinct from the ids
already in the collection — adding while the clock reads 5 to a collection
already holding id 5 yields two records with id 5. -/
theorem c9_id_collision_counterexample :
    (addExpense sampleDraft 5 [idFiveExpense]).map Expense.id = [5, 5] ∧
    ¬ ((addExpense sampleDraft 5 [idFiveExpense]).map Expense.id).Nodup :=
  ⟨rfl, by decide⟩

/-- C9 (amended): `add` assigns the clock reading as the id with no
distinctness check, so it preserves id distinctness only when that reading
differs from every id already present; `togglePaid` and `update` never
change the id list at all, for any targeted id (present or absent), and
`delete` only removes ids, so all three preserve distinctness
unconditionally. -/
theorem c9_id_uniqueness_amended (draft : Draft) (now anyId : Nat)
    (u : Expense) (es : List Expense) :
    ((es.map Expense.id).Nodup → now ∉ es.map Expense.id →
      ((addExpense draft now es).map Expense.id).Nodup) ∧
    (togglePaid anyId es).map Expense.id = es.map Expense.id ∧
    (updateExpense u es).map Expense.id = es.map Expense.id ∧
    ((es.map Expense.id).Nodup →
      ((deleteExpense anyId es).map Expense.id).Nodup) := by
  refine ⟨?_, ?_, ?_, ?_⟩
  · intro hnd hnew
    unfold addExpense
    rw [List.map_append, List.nodup_append]
    refine ⟨hnd, List.nodup_singleton _, ?_⟩
    intro a ha hb
    simp only [List.map_cons, List.map_nil, List.mem_singleton] at hb
    subst hb
    exact hnew ha
  · unfold togglePaid
    rw [List.map_map]
    apply List.map_congr_left
    intro e _
    by_cases h : e.id = anyId <;> simp [Function.comp, h]
  · unfold updateExpense
    rw [List.map_map]
    apply List.map_congr_left
    intro e _
    by_cases h : e.id = u.id <;> simp [Function.comp, h]
  · intro hnd
    unfold deleteExpense
    exact List.Nodup.sublist (List.Sublist.map Expense.id (List.filter_sublist es)) hnd

/-- C9 witness: the amended statement over the collection holding only id 5,
with a fresh clock reading 7 for the add and the present id 5 as the target
of the toggle and the delete. -/
theorem c9_id_uniqueness_amended_witness :
    ((addExpense sampleDraft 7 [idFiveExpense]).map Expense.id).Nodup ∧
    (togglePaid 5 [idFiveExpense]).map Expense.id = [idFiveExpense].map Expense.id ∧
    (updateExpense sampleExpense [idFiveExpense]).map Expense.id =
      [idFiveExpense].map Expense.id ∧
    ((deleteExpense 5 [idFiveExpense]).map Expense.id).Nodup := by
  have h := c9_id_uniqueness_amended sampleDraft 7 5 sampleExpense [idFiveExpense]
  exact ⟨h.1 (by decide) (by decide), h.2.1, h.2.2.1, h.2.2.2 (by decide)⟩

lemma contrib_of_none (e : Expense) (c : String) (h : numericAmount e = none) :
    contrib e c = 0 := by
  unfold contrib
  rw [h, ite_self]
  rfl

lemma contrib_self (e : Expense) (v : ℚ) (h : numericAmount e = some v) :
    contrib e e.category = v := by
  unfold contrib
  rw [if_pos rfl, h]
  rfl

lemma contrib_other (e : Expense) (c : String) (h : c ≠ e.category) :
    contrib e c = 0 := by
  unfold contrib
  rw [if_neg (fun hh => h hh.symm)]
  rfl

lemma addToFirst_map_name (acc : List ChartEntry) (cat : String) (v : ℚ) :
    (addToFirst acc cat v).map ChartEntry.name = acc.map ChartEntry.name := by
  induction acc with
  | nil => rfl
  | cons item rest ih =>
    unfold addToFirst
    by_cases h : item.name = cat
    · rw [if_pos h]
      simp
    · rw [if_neg h]
      simp [ih]

lemma addToFirst_values (acc : List ChartEntry) (cat : String) (v : ℚ) :
    (acc.map ChartEntry.name).Nodup →
    ∀ x ∈ addToFirst acc cat v, ∃ entry ∈ acc, x.name = entry.name ∧
      x.value = if entry.name = cat then jsAdd entry.value (JsNum.num v)
                else entry.value := by
  induction acc with
  | nil =>
    intro _ x hx
    cases hx
  | cons item rest ih =>
    intro hnd x hx
    rw [List.map_cons, List.nodup_cons] at hnd
    obtain ⟨hnotin, hndrest⟩ := hnd
    unfold addToFirst at hx
    by_cases h : item.name = cat
    · rw [if_pos h] at hx
      rcases List.mem_cons.mp hx with hx1 | hx2
      · refine ⟨item, List.mem_cons_self _ _, ?_, ?_⟩
        · rw [hx1]
        · rw [hx1, if_pos h]
      · refine ⟨x, List.mem_cons_of_mem _ hx2, rfl, ?_⟩
        have hxn : x.name ≠ cat := by
          intro hc
          apply hnotin
          rw [h, ← hc]
          exact List.mem_map_of_mem _ hx2
        rw [if_neg hxn]
    · rw [if_neg h] at hx
      rcases List.mem_cons.mp hx with hx1 | hx2
      · refine ⟨item, List.mem_cons_self _ _, ?_, ?_⟩
        · rw [hx1]
        · rw [hx1, if_neg h]
      · obtain ⟨entry, hm, he1, he2⟩ := ih hndrest x hx2
        exact ⟨entry, List.mem_cons_of_mem _ hm, he1, he2⟩

lemma chartInv_congr (acc : List ChartEntry) (f g : String → ℚ)
    (seen : List String) (hfg : ∀ c, f c = g c) (h : ChartInv acc f seen) :
    ChartInv acc g seen := by
  obtain ⟨h1, h2, h3, h4⟩ := h
  refine ⟨h1, h2, fun entry hm => by rw [h3 entry hm, hfg], fun c hc => by rw [← hfg]; exact h4 c hc⟩

lemma chartStep_inv (acc : List ChartEntry) (f : String → ℚ) (seen : List String)
    (e : Expense) (hinv : ChartInv acc f seen) :
    ChartInv (chartStep acc e) (fun c => f c + contrib e c) (seenStep seen e) := by
  obtain ⟨hnames, hnodup, hval, hzero⟩ := hinv
  cases hpe : parseFloat e.amount with
  | nan =>
    have hna : numericAmount e = none := by simp [numericAmount, hpe]
    have hcs : chartStep acc e = acc := by simp [chartStep, hpe]
    have hss : seenStep seen e = seen := by simp [seenStep, hna]
    rw [hcs, hss]
    refine ⟨hnames, hnodup, ?_, ?_⟩
    · intro entry hm
      show entry.value = JsNum.num (f entry.name + contrib e entry.name)
      rw [hval entry hm, contrib_of_none e entry.name hna, add_zero]
    · intro c hc
      show f c + contrib e c = 0
      rw [contrib_of_none e c hna, add_zero]
      exact hzero c hc
  | num v =>
    have hna : numericAmount e = some v := by simp [numericAmount, hpe]
    by_cases hmemseen : e.category ∈ seen
    · have hany : (acc.any fun item => item.name == e.category) = true := by
        rw [List.any_eq_true]
        rw [← hnames] at hmemseen
        obtain ⟨entry, hmementry, hname⟩ := List.mem_map.mp hmemseen
        exact ⟨entry, hmementry, by rw [beq_iff_eq]; exact hname⟩
      have hcs : chartStep acc e = addToFirst acc e.category v := by
        simp [chartStep, hpe, hany]
      have hss : seenStep seen e = seen := by simp [seenStep, hna, hmemseen]
      rw [hcs, hss]
      refine ⟨?_, hnodup, ?_, ?_⟩
      · rw [addToFirst_map_name]
        exact hnames
      · intro entry hm
        show entry.value = JsNum.num (f entry.name + contrib e entry.name)
        obtain ⟨entry0, hm0, hnameEq, hvalEq⟩ :=
          addToFirst_values acc e.category v (hnames ▸ hnodup) entry hm
        by_cases hcat : entry0.name = e.category
        · rw [hvalEq, if_pos hcat, hval entry0 hm0, hnameEq, hcat,
            contrib_self e v hna]
          rfl
        · rw [hvalEq, if_neg hcat, hval entry0 hm0, hnameEq,
            contrib_other e entry0.name hcat, add_zero]
      · intro c hc
        show f c + contrib e c = 0
        have hne : c ≠ e.category := fun h => hc (h ▸ hmemseen)
        rw [hzero c hc, contrib_other e c hne, add_zero]
    · have hany : (acc.any fun item => item.name == e.category) = false := by
        cases hq : (acc.any fun item => item.name == e.category) with
        | false => rfl
        | true =>
          exfalso
          obtain ⟨entry, hm, hbeq⟩ := List.any_eq_true.mp hq
          rw [beq_iff_eq] at hbeq
          apply hmemseen
          rw [← hnames, ← hbeq]
          exact List.mem_map_of_mem _ hm
      have hcs : chartStep acc e =
          acc ++ [{ name := e.category, value := JsNum.num v }] := by
        simp [chartStep, hpe, hany]
      have hss : seenStep seen e = seen ++ [e.category] := by
        simp [seenStep, hna, hmemseen]
      rw [hcs, hss]
      refine ⟨?_, ?_, ?_, ?_⟩
      · rw [List.map_append, hnames]
        rfl
      · rw [List.nodup_append]
        refine ⟨hnodup, List.nodup_singleton _, ?_⟩
        intro a ha hb
        rw [List.mem_singleton] at hb
        subst hb
        exact hmemseen ha
      · intro entry hm
        show entry.value = JsNum.num (f entry.name + contrib e entry.name)
        rcases List.mem_append.mp hm with hold | hnew2
        · have hne : entry.name ≠ e.category := by
            intro h
            apply hmemseen
            rw [← hnames, ← h]
            exact List.mem_map_of_mem _ hold
          rw [hval entry hold, contrib_other e entry.name hne, add_zero]
        · rw [List.mem_singleton] at hnew2
          subst hnew2
          show JsNum.num v = JsNum.num (f e.category + contrib e e.category)
          rw [hzero e.category hmemseen, contrib_self e v hna, zero_add]
      · intro c hc
        show f c + contrib e c = 0
        rw [List.mem_append, not_or, List.mem_singleton] at hc
        obtain ⟨hc1, hc2⟩ := hc
        rw [hzero c hc1, contrib_other e c hc2, add_zero]

lemma foldl_chart_inv (es : List Expense) :
    ∀ (acc : List ChartEntry) (f : String → ℚ) (seen : List String),
    ChartInv acc f seen →
    ChartInv (es.foldl chartStep acc) (fun c => f c + categorySum es c)
      (es.foldl seenStep seen) := by
  induction es with
  | nil =>
    intro acc f seen h
    exact chartInv_congr acc f _ seen (fun c => by simp [categorySum]) h
  | cons e t ih =>
    intro acc f seen h
    rw [List.foldl_cons, List.foldl_cons]
    have hrec := ih (chartStep acc e) (fun c => f c + contrib e c)
      (seenStep seen e) (chartStep_inv acc f seen e h)
    apply chartInv_congr _ _ _ _ _ hrec
    intro c
    simp [categorySum, add_assoc]

/-- C8: the chart's category breakdown has no duplicate category names, its
entries appear in first-seen-category order over the records with numeric
amounts, every value is the plain (non-NaN) rational sum of the numeric
amounts of that category's records — records with non-numeric amounts being
skipped silently — and Scenario D holds: two Rent/Mortgage records of 800
and 200 yield the single entry (Rent/Mortgage, 1000). -/
theorem c8_category_breakdown (es : List Expense) :
    ((chartData es).map ChartEntry.name).Nodup ∧
    (chartData es).map ChartEntry.name = seenCategories es ∧
    (∀ entry ∈ chartData es, entry.value = JsNum.num (categorySum es entry.name)) ∧
    chartData [rentExpenseA, rentExpenseB] =
      [{ name := "Rent/Mortgage", value := JsNum.num 1000 }] := by
  have hinv0 : ChartInv [] (fun _ => 0) [] :=
    ⟨rfl, List.nodup_nil, fun entry hm => absurd hm (List.not_mem_nil _), fun _ _ => rfl⟩
  obtain ⟨h1, h2, h3, _⟩ := foldl_chart_inv es [] (fun _ => 0) [] hinv0
  refine ⟨?_, ?_, ?_, ?_⟩
  · rw [show (chartData es).map ChartEntry.name = es.foldl seenStep [] from h1]
    exact h2
  · exact h1
  · intro entry hm
    have := h3 entry hm
    simpa [zero_add] using this
  · with_unfolding_all rfl
